import Mathlib

/-!
Verification of the pond-planner core: a shallow embedding of the
transaction manager (`services/PondTransactionManager.py`), the stock
manager (`services/PondStockManager.py`), the validation service
(`services/PondValidationService.py`), the calculators
(`calculators/VolumeCalculator.py`, `calculators/StockingCalculator.py`,
`calculators/EquipmentCalculator.py`) and the fish/shape repositories.

Modelling conventions:
* Python `dict[str, T]` becomes an insertion-ordered association list
  `PyDict T`; assignment replaces in place or appends, `del` removes the
  key, `in` is `lookup`.
* Python exceptions become `Except (String × σ) (τ × σ)`: an error carries
  the message and the state at the moment of the raise, so that partial
  mutation before a raise is observable.
* Python floats are modelled as exact rationals; `math.pi`, `math.sqrt 2`
  and `math.sqrt 3` (double-precision constants, hence rationals) are
  abstract parameters gathered in `MathConsts`.
* `copy.deepcopy` on pure values is the identity in this embedding.
-/

deriving instance DecidableEq for Except

namespace Pond

/-! ## Python dictionary primitives -/

/-- Insertion-ordered association list standing in for `dict[str, α]`. -/
abbrev PyDict (α : Type) : Type := List (String × α)

/-- Embeds `d.get(k)` / `k in d` on a Python dict: the value of the first (and,
with unique keys, only) binding of `k`. -/
def dictGet? {α : Type} : PyDict α → String → Option α
  | [], _ => none
  | (k', v') :: rest, k =>
    if k' = k then some v' else dictGet? rest k

/-- Embeds `d[k] = v` on a Python dict: replace the value of an existing key in
place, otherwise append the new binding at the end. -/
def dictSet {α : Type} : PyDict α → String → α → PyDict α
  | [], k, v => [(k, v)]
  | (k', v') :: rest, k, v =>
    if k' = k then (k, v) :: rest else (k', v') :: dictSet rest k v

/-- Embeds `del d[k]` on a Python dict: remove the (unique) binding of `k`. -/
def dictDel {α : Type} : PyDict α → String → PyDict α
  | [], _ => []
  | (k', v') :: rest, k =>
    if k' = k then rest else (k', v') :: dictDel rest k

/-- Containment of one character list in another (needed below because
this toolchain has no ready-made substring test). -/
def listInfix (needle : List Char) : List Char → Bool
  | [] => needle.isEmpty
  | c :: rest => needle.isPrefixOf (c :: rest) || listInfix needle rest

/-- Python `sub in s` on strings: substring containment. -/
def strIn (sub s : String) : Bool :=
  listInfix sub.toList s.toList

/-- Python `int(x)` on a float/rational: truncation toward zero. -/
def pyInt (q : ℚ) : ℤ :=
  if 0 ≤ q then q.floor else q.ceil

/-- ASCII lower-casing of one character (what `str.lower()` does on the
ASCII identifiers used as keys here). -/
def charLower (c : Char) : Char :=
  if c.isUpper then Char.ofNat (c.toNat + 32) else c

/-- Python `str.lower()`.  Defined by structural recursion over the
character data so concrete runs reduce in the kernel (`String.toLower`
is implemented by well-founded recursion and does not). -/
def pyLower (s : String) : String :=
  ⟨s.data.map charLower⟩

/-! ## Data model (`Fish.py`, `PondDimensions.py`) -/

/-- Mirror of the `Fish` dataclass.  `bioload_factor` and
`min_liters_per_fish` are `Option`s because `StockingCalculator`
defensively handles `None` values in these fields. -/
structure Fish where
  name : String
  adult_length_cm : ℚ
  bioload_factor : Option ℚ
  min_liters_per_fish : Option ℚ
deriving DecidableEq

/-- Mirror of the `PondDimensions` dataclass. -/
structure PondDimensions where
  length_meters : ℚ
  width_meters : ℚ
  avg_depth_meters : ℚ
  shape : String
deriving DecidableEq

/-- The fish stock: `dict[str, int]` mapping fish keys to quantities. -/
abbrev Stock : Type := PyDict ℤ

/-- Values passed to `save_state`: the stock manager saves the stock map
under `"fish_stock"`, the planner saves the dimensions (possibly `None`)
under `"dimensions"`. -/
inductive SavedVal where
  | stock (s : Stock)
  | dims (d : Option PondDimensions)
deriving DecidableEq

/-! ## Transaction manager (`services/PondTransactionManager.py`) -/

/-- The three mutable attributes of `PondTransactionManager`. -/
structure TMState where
  transaction_active : Bool
  rollback_data : PyDict SavedVal
  transaction_stack : List (PyDict SavedVal)
deriving DecidableEq

/-- A world: the transaction manager state together with the external
mutable state `σ` it protects (e.g. the live stock map). -/
structure World (σ : Type) where
  tm : TMState
  ext : σ
deriving DecidableEq

/-- Result of a Python call over state `σ`: either a value and the new
state, or an exception message and the state at the raise. -/
abbrev Py (σ τ : Type) : Type := Except (String × σ) (τ × σ)

variable {σ τ : Type}

/-- Embeds `PondTransactionManager.begin_transaction`. -/
def begin_transaction (w : World σ) : Py (World σ) Unit :=
  if w.tm.transaction_active then
    .error ("Transaction already active", w)
  else
    .ok ((), { w with tm := { w.tm with transaction_active := true, rollback_data := [] } })

/-- Embeds `PondTransactionManager.commit_transaction`. -/
def commit_transaction (w : World σ) : Py (World σ) Unit :=
  if w.tm.transaction_active then
    .ok ((), { w with tm := ⟨false, [], []⟩ })
  else
    .error ("No active transaction to commit", w)

/-- Embeds `PondTransactionManager.rollback_transaction`.  Note: it only clears
the bookkeeping; it does not write saved snapshots back into `ext`. -/
def rollback_transaction (w : World σ) : Py (World σ) Unit :=
  if w.tm.transaction_active then
    .ok ((), { w with tm := ⟨false, [], []⟩ })
  else
    .error ("No active transaction to rollback", w)

/-- Embeds `PondTransactionManager.is_in_transaction`. -/
def is_in_transaction (w : World σ) : Bool :=
  w.tm.transaction_active

/-- Embeds `PondTransactionManager.save_state`: store a deep copy of `value`
under `key`, but only when a transaction is active and the key has no
entry yet in the rollback map. -/
def save_state (key : String) (value : SavedVal) (w : World σ) : World σ :=
  if w.tm.transaction_active && (dictGet? w.tm.rollback_data key).isNone then
    { w with tm := { w.tm with rollback_data := w.tm.rollback_data ++ [(key, value)] } }
  else
    w

/-- Embeds `PondTransactionManager.get_rollback_state` (`None` ↦ `none`). -/
def get_rollback_state (key : String) (w : World σ) : Option SavedVal :=
  dictGet? w.tm.rollback_data key

/-- Embeds `PondTransactionManager._execute_nested_transaction`: push a deep copy
of the rollback map as a savepoint, run the operation, pop the savepoint
(discarding it on success, restoring it as the rollback map on failure).
`list.pop()` on an empty list raises `IndexError`. -/
def _execute_nested_transaction (op : World σ → Py (World σ) τ) (w : World σ) :
    Py (World σ) τ :=
  let savepoint := w.tm.rollback_data
  let w1 : World σ :=
    { w with tm := { w.tm with transaction_stack := w.tm.transaction_stack ++ [savepoint] } }
  match op w1 with
  | .ok (r, w2) =>
    match w2.tm.transaction_stack.getLast? with
    | some _ =>
      .ok (r, { w2 with tm := { w2.tm with transaction_stack := w2.tm.transaction_stack.dropLast } })
    | none => .error ("pop from empty list", w2)
  | .error (e, w2) =>
    match w2.tm.transaction_stack.getLast? with
    | some sp =>
      .error (e, { w2 with tm := { w2.tm with rollback_data := sp, transaction_stack := w2.tm.transaction_stack.dropLast } })
    | none => .error ("pop from empty list", w2)

/-- Embeds `PondTransactionManager.execute_transaction`: nested call if a
transaction is active, otherwise begin / run / commit, rolling back (and
re-raising) on failure.  `commit` runs inside the `try`, so a failing
commit also triggers the rollback path. -/
def execute_transaction (op : World σ → Py (World σ) τ) (w : World σ) :
    Py (World σ) τ :=
  if w.tm.transaction_active then
    _execute_nested_transaction op w
  else
    match begin_transaction w with
    | .error (e, w1) => .error (e, w1)
    | .ok (_, w1) =>
      match op w1 with
      | .ok (r, w2) =>
        match commit_transaction w2 with
        | .ok (_, w3) => .ok (r, w3)
        | .error (e, w3) =>
          match rollback_transaction w3 with
          | .ok (_, w4) => .error (e, w4)
          | .error (e2, w4) => .error (e2, w4)
      | .error (e, w2) =>
        match rollback_transaction w2 with
        | .ok (_, w3) => .error (e, w3)
        | .error (e2, w3) => .error (e2, w3)

/-! ## Validation service (`services/PondValidationService.py`) -/

/-- Embeds `PondValidationService.validate_fish_quantity`. -/
def validate_fish_quantity (quantity : ℤ) : List String :=
  (if quantity ≤ 0 then ["Quantity must be positive"] else []) ++
  (if quantity > 10000 then ["Quantity exceeds maximum allowed (10000)"] else [])

/-- Embeds `PondValidationService.validate_fish_stock_data`: per-entry quantity
validation with the fish type prefixed to each message.  The `isinstance`
checks of the source are vacuous in this typed embedding. -/
def validate_fish_stock_data (fish_stock : PyDict ℤ) : List String :=
  fish_stock.foldl
    (fun errs p => errs ++ (validate_fish_quantity p.2).map (fun e => p.1 ++ ": " ++ e)) []

/-! ## Fish repository (`repositories/YamlFishRepository.py`) -/

/-- The loaded fish catalog (the cache of `YamlFishRepository`). -/
abbrev FishRepo : Type := PyDict Fish

/-- Embeds `YamlFishRepository.fish_exists` (case-insensitive). -/
def fish_exists (repo : FishRepo) (fish_key : String) : Bool :=
  (dictGet? repo (pyLower fish_key)).isSome

/-- Embeds `YamlFishRepository.get_fish_by_key`: `KeyError` when absent. -/
def get_fish_by_key (repo : FishRepo) (fish_key : String) : Except String Fish :=
  match dictGet? repo (pyLower fish_key) with
  | none => .error ("Fish key \x27" ++ fish_key ++ "\x27 not found in database")
  | some fish => .ok fish

/-! ## Stock manager (`services/PondStockManager.py`) -/

/-- Body of the closure `_add_operation` inside
`PondStockManager.add_fish`: validate the quantity, check the fish type
exists, save the current stock for rollback, then increment. -/
def _add_operation (repo : FishRepo) (fish_type : String) (quantity : ℤ)
    (w : World Stock) : Py (World Stock) Unit :=
  let quantity_errors := validate_fish_quantity quantity
  if quantity_errors = [] then
    let fish_key := pyLower fish_type
    if fish_exists repo fish_key then
      let w1 := save_state "fish_stock" (.stock w.ext) w
      .ok ((), { w1 with ext := dictSet w1.ext fish_key ((dictGet? w1.ext fish_key).getD 0 + quantity) })
    else
      .error ("Unknown fish type: " ++ fish_type, w)
  else
    .error ("Invalid quantity: " ++ String.intercalate "; " quantity_errors, w)

/-- Embeds `PondStockManager.add_fish`: the add operation submitted to
`execute_transaction`. -/
def add_fish (repo : FishRepo) (fish_type : String) (quantity : ℤ)
    (w : World Stock) : Py (World Stock) Unit :=
  execute_transaction (_add_operation repo fish_type quantity) w

/-- Body of the closure `_remove_operation` inside
`PondStockManager.remove_fish`: validate the quantity, no-op when the key
is absent, otherwise save state and clamp at zero, deleting the key when
the new quantity reaches zero. -/
def _remove_operation (fish_type : String) (quantity : ℤ)
    (w : World Stock) : Py (World Stock) Unit :=
  let quantity_errors := validate_fish_quantity quantity
  if quantity_errors = [] then
    let fish_key := pyLower fish_type
    match dictGet? w.ext fish_key with
    | none => .ok ((), w)
    | some cur =>
      let w1 := save_state "fish_stock" (.stock w.ext) w
      let new_quantity := max 0 (cur - quantity)
      if new_quantity = 0 then
        .ok ((), { w1 with ext := dictDel w1.ext fish_key })
      else
        .ok ((), { w1 with ext := dictSet w1.ext fish_key new_quantity })
  else
    .error ("Invalid quantity: " ++ String.intercalate "; " quantity_errors, w)

/-- Embeds `PondStockManager.remove_fish`. -/
def remove_fish (fish_type : String) (quantity : ℤ)
    (w : World Stock) : Py (World Stock) Unit :=
  execute_transaction (_remove_operation fish_type quantity) w

/-- The loop at the end of `_bulk_add_operation`: apply every increment
of the batch in order. -/
def applyAdditions (s : Stock) (fish_additions : PyDict ℤ) : Stock :=
  fish_additions.foldl
    (fun acc p => dictSet acc (pyLower p.1) ((dictGet? acc (pyLower p.1)).getD 0 + p.2)) s

/-- Body of the closure `_bulk_add_operation` inside
`PondStockManager.bulk_add_fish`: validate the whole batch, check every
fish type exists (raising on the first unknown one), save state once,
then apply all increments. -/
def _bulk_add_operation (repo : FishRepo) (fish_additions : PyDict ℤ)
    (w : World Stock) : Py (World Stock) Unit :=
  let stock_errors := validate_fish_stock_data fish_additions
  if stock_errors = [] then
    match fish_additions.find? (fun p => !(fish_exists repo (pyLower p.1))) with
    | some p => .error ("Unknown fish type: " ++ p.1, w)
    | none =>
      let w1 := save_state "fish_stock" (.stock w.ext) w
      .ok ((), { w1 with ext := applyAdditions w1.ext fish_additions })
  else
    .error ("Invalid fish stock data: " ++ String.intercalate "; " stock_errors, w)

/-- Embeds `PondStockManager.bulk_add_fish`. -/
def bulk_add_fish (repo : FishRepo) (fish_additions : PyDict ℤ)
    (w : World Stock) : Py (World Stock) Unit :=
  execute_transaction (_bulk_add_operation repo fish_additions) w

/-- Embeds `PondStockManager.get_stock` (the defensive copy is the identity on
pure values). -/
def get_stock (w : World Stock) : Stock :=
  w.ext

/-- Embeds `PondStockManager.clear_stock`: unconditional, non-transactional. -/
def clear_stock (w : World Stock) : World Stock :=
  { w with ext := [] }

/-! ## Shape repository (`repositories/YamlShapeRepository.py`) -/

/-- One shape entry of the YAML catalog, accessed in the source through
`dict.get` with defaults, hence the `Option` fields. -/
structure ShapeConfig where
  formula_type : Option String
  multiplier : Option ℚ
  area_formula : Option String
deriving DecidableEq

/-- Optional per-axis bounds of `validation_rules` (`dict.get` defaults:
`0` for missing minima, `float("inf")` for missing maxima). -/
structure DimBounds where
  length : Option ℚ
  width : Option ℚ
  depth : Option ℚ
deriving DecidableEq

/-- The `validation_rules` mapping of the shape catalog. -/
structure ValidationRules where
  min_dimensions : DimBounds
  max_dimensions : DimBounds
deriving DecidableEq

/-- The loaded shape catalog (caches of `YamlShapeRepository`). -/
structure ShapeRepo where
  shapes : PyDict ShapeConfig
  validation_rules : ValidationRules
deriving DecidableEq

/-- Embeds `YamlShapeRepository.shape_exists` (case-insensitive). -/
def shape_exists (repo : ShapeRepo) (shape_key : String) : Bool :=
  (dictGet? repo.shapes (pyLower shape_key)).isSome

/-- Embeds `YamlShapeRepository.get_shape_by_key`: `KeyError` when absent. -/
def get_shape_by_key (repo : ShapeRepo) (shape_key : String) :
    Except String ShapeConfig :=
  match dictGet? repo.shapes (pyLower shape_key) with
  | none => .error ("Shape key \x27" ++ shape_key ++ "\x27 not found in database")
  | some config => .ok config

/-- Embeds `YamlShapeRepository.get_shape_keys`: the sorted key list (only used
in error messages here). -/
def get_shape_keys (repo : ShapeRepo) : List String :=
  (repo.shapes.map Prod.fst).mergeSort (fun a b => a ≤ b)

/-! ## Volume calculator (`calculators/VolumeCalculator.py`) -/

/-- The double-precision values of `math.pi`, `math.sqrt(2)` and
`math.sqrt(3)` used by the source.  Doubles are rationals, so they enter
the embedding as abstract rational parameters. -/
structure MathConsts where
  pi : ℚ
  sqrt2 : ℚ
  sqrt3 : ℚ

/-- Embeds `VolumeCalculator._calculate_volume_by_shape_config`: area dispatch
on `formula_type` (with defaults `"simple"` and multiplier `1.0`),
then `area * multiplier * depth` in cubic meters. -/
def _calculate_volume_by_shape_config (C : MathConsts) (shape_config : ShapeConfig)
    (length width depth : ℚ) : ℚ :=
  let formula_type := shape_config.formula_type.getD "simple"
  let multiplier := shape_config.multiplier.getD 1
  let area : ℚ :=
    if formula_type = "simple" then length * width
    else if formula_type = "circular" then C.pi * (width / 2) ^ 2
    else if formula_type = "elliptical" then C.pi * (length / 2) * (width / 2)
    else if formula_type = "triangular" then (1 / 2 : ℚ) * length * width
    else if formula_type = "polygon" then
      if strIn "hexagonal" (shape_config.area_formula.getD "") then
        (3 * C.sqrt3 / 2) * width * width
      else if strIn "octagonal" (shape_config.area_formula.getD "") then
        2 * (1 + C.sqrt2) * width * width
      else length * width
    else if formula_type = "approximation" then
      if strIn "pi" (shape_config.area_formula.getD "") then
        C.pi * (length / 2) * (width / 2)
      else length * width
    else length * width
  area * multiplier * depth

/-- Python `x > max_dims.get(axis, float("inf"))`: exceeding an absent
bound is impossible. -/
def exceedsMax (x : ℚ) (bound : Option ℚ) : Bool :=
  match bound with
  | none => false
  | some m => x > m

/-- Embeds `VolumeCalculator._validate_dimensions` for a non-`None` dimensions
object (the `None` check of the source is performed by the caller
`calculate_volume_liters` below, which receives an `Option`): shape
non-empty and known, then min/max bounds per axis in source order. -/
def _validate_dimensions (repo : ShapeRepo) (d : PondDimensions) :
    Except String Unit :=
  if d.shape = "" then .error "Pond shape must be specified"
  else if !(shape_exists repo d.shape) then
    .error ("Unknown shape \x27" ++ d.shape ++ "\x27. Available shapes: " ++
      String.intercalate ", " (get_shape_keys repo))
  else
    let min_dims := repo.validation_rules.min_dimensions
    let max_dims := repo.validation_rules.max_dimensions
    if d.length_meters < min_dims.length.getD 0 then
      .error ("Length must be at least " ++ toString (min_dims.length.getD 0) ++ " meters")
    else if d.width_meters < min_dims.width.getD 0 then
      .error ("Width must be at least " ++ toString (min_dims.width.getD 0) ++ " meters")
    else if d.avg_depth_meters < min_dims.depth.getD 0 then
      .error ("Depth must be at least " ++ toString (min_dims.depth.getD 0) ++ " meters")
    else if exceedsMax d.length_meters max_dims.length then
      .error ("Length cannot exceed " ++ toString (max_dims.length.getD 0) ++ " meters")
    else if exceedsMax d.width_meters max_dims.width then
      .error ("Width cannot exceed " ++ toString (max_dims.width.getD 0) ++ " meters")
    else if exceedsMax d.avg_depth_meters max_dims.depth then
      .error ("Depth cannot exceed " ++ toString (max_dims.depth.getD 0) ++ " meters")
    else .ok ()

/-- Embeds `VolumeCalculator.calculate_volume_liters`: validate, fetch the shape
config, compute cubic meters, require a strictly positive result, and
convert to liters (`× 1000`). -/
def calculate_volume_liters (C : MathConsts) (repo : ShapeRepo)
    (dimensions : Option PondDimensions) : Except String ℚ :=
  match dimensions with
  | none => .error "Pond dimensions cannot be None"
  | some d =>
    match _validate_dimensions repo d with
    | .error e => .error e
    | .ok _ =>
      match get_shape_by_key repo d.shape with
      | .error e => .error e
      | .ok shape_config =>
        let volume_m3 := _calculate_volume_by_shape_config C shape_config
          d.length_meters d.width_meters d.avg_depth_meters
        if volume_m3 ≤ 0 then .error "Calculated volume must be positive"
        else .ok (volume_m3 * 1000)

/-! ## Stocking calculator (`calculators/StockingCalculator.py`) -/

/-- The loop of `StockingCalculator.calculate_required_volume`, threading
the running total: skip non-positive quantities, look the species up
(`KeyError` when absent), reject `None` or non-positive
`min_liters_per_fish`, and accumulate `min_liters_per_fish × quantity`. -/
def requiredVolumeGo (repo : FishRepo) : ℚ → PyDict ℤ → Except String ℚ
  | total, [] => .ok total
  | total, p :: rest =>
    if p.2 ≤ 0 then requiredVolumeGo repo total rest
    else
      match get_fish_by_key repo p.1 with
      | .error e => .error e
      | .ok fish =>
        match fish.min_liters_per_fish with
        | none =>
          .error ("Fish \x27" ++ p.1 ++ "\x27 has invalid min_liters_per_fish value (None)")
        | some ml =>
          if ml ≤ 0 then
            .error ("Fish \x27" ++ p.1 ++ "\x27 has invalid min_liters_per_fish value (" ++
              toString ml ++ ")")
          else requiredVolumeGo repo (total + ml * p.2) rest

/-- Embeds `StockingCalculator.calculate_required_volume`. -/
def calculate_required_volume (repo : FishRepo) (fish_stock : PyDict ℤ) :
    Except String ℚ :=
  requiredVolumeGo repo 0 fish_stock

/-- Embeds `StockingCalculator.get_stocking_recommendations`: reject a
non-positive volume, then for every catalog entry with a valid positive
requirement record `int(volume / requirement)` keyed by display name
(silently skipping invalid entries). -/
def get_stocking_recommendations (repo : FishRepo) (pond_volume_liters : ℚ) :
    Except String (PyDict ℤ) :=
  if pond_volume_liters ≤ 0 then .error "Pond volume must be positive"
  else
    .ok (repo.foldl
      (fun recommendations p =>
        match p.2.min_liters_per_fish with
        | none => recommendations
        | some ml =>
          if ml ≤ 0 then recommendations
          else dictSet recommendations p.2.name (pyInt (pond_volume_liters / ml)))
      [])

/-! ## Equipment calculator (`calculators/EquipmentCalculator.py`) -/

/-- Embeds `EquipmentCalculator.calculate_pump_size`: flow
`int((volume / 2) * (1 + bioload / 10))` and a bioload category string. -/
def calculate_pump_size (pond_volume_liters bioload : ℚ) :
    Except String (ℤ × String) :=
  if pond_volume_liters ≤ 0 then .error "Pond volume must be positive"
  else if bioload < 0 then .error "Bioload cannot be negative"
  else
    let base_flow := pond_volume_liters / 2
    let bioload_multiplier := 1 + bioload / 10
    let required_lph := pyInt (base_flow * bioload_multiplier)
    let category :=
      if bioload ≤ 5 then "Light bioload"
      else if bioload ≤ 15 then "Medium bioload"
      else "Heavy bioload"
    .ok (required_lph, category)

/-! ## Basic lemmas about the embedding -/

/-- The world right after `begin_transaction` succeeds. -/
def beganWorld (w : World σ) : World σ :=
  ⟨⟨true, [], w.tm.transaction_stack⟩, w.ext⟩

/-- The world right after a nested call pushes its savepoint. -/
def pushedWorld (w : World σ) : World σ :=
  ⟨⟨w.tm.transaction_active, w.tm.rollback_data,
    w.tm.transaction_stack ++ [w.tm.rollback_data]⟩, w.ext⟩

theorem execute_transaction_inactive (op : World σ → Py (World σ) τ) (w : World σ)
    (hw : w.tm.transaction_active = false) :
    execute_transaction op w =
      match op (beganWorld w) with
      | .ok (r, w2) =>
        match commit_transaction w2 with
        | .ok (_, w3) => .ok (r, w3)
        | .error (e, w3) =>
          match rollback_transaction w3 with
          | .ok (_, w4) => .error (e, w4)
          | .error (e2, w4) => .error (e2, w4)
      | .error (e, w2) =>
        match rollback_transaction w2 with
        | .ok (_, w3) => .error (e, w3)
        | .error (e2, w3) => .error (e2, w3) := by
  rw [execute_transaction, if_neg (by simp [hw]), begin_transaction, if_neg (by simp [hw])]
  rfl

theorem execute_transaction_nested (op : World σ → Py (World σ) τ) (w : World σ)
    (hw : w.tm.transaction_active = true) :
    execute_transaction op w =
      match op (pushedWorld w) with
      | .ok (r, w2) =>
        match w2.tm.transaction_stack.getLast? with
        | some _ =>
          .ok (r, { w2 with tm := { w2.tm with transaction_stack := w2.tm.transaction_stack.dropLast } })
        | none => .error ("pop from empty list", w2)
      | .error (e, w2) =>
        match w2.tm.transaction_stack.getLast? with
        | some sp =>
          .error (e, { w2 with tm := { w2.tm with rollback_data := sp, transaction_stack := w2.tm.transaction_stack.dropLast } })
        | none => .error ("pop from empty list", w2) := by
  rw [execute_transaction, if_pos hw, _execute_nested_transaction]
  rfl

@[simp]
theorem save_state_ext (key : String) (value : SavedVal) (w : World σ) :
    (save_state key value w).ext = w.ext := by
  rw [save_state]; split <;> rfl

@[simp]
theorem save_state_active (key : String) (value : SavedVal) (w : World σ) :
    (save_state key value w).tm.transaction_active = w.tm.transaction_active := by
  rw [save_state]; split <;> rfl

@[simp]
theorem save_state_stack (key : String) (value : SavedVal) (w : World σ) :
    (save_state key value w).tm.transaction_stack = w.tm.transaction_stack := by
  rw [save_state]; split <;> rfl

/-- Success propagation: when the operation succeeds on every world
carrying the external state of the caller, turning the external state into
`f` of it while keeping the active flag and the savepoint stack, the
wrapped call succeeds with external state `f w.ext`. -/
theorem exec_ok_of (op : World σ → Py (World σ) τ) (g : World σ → World σ)
    (f : σ → σ) (r : τ) (w : World σ)
    (hstack : ∀ w1, (g w1).tm.transaction_stack = w1.tm.transaction_stack)
    (hactive : ∀ w1, (g w1).tm.transaction_active = w1.tm.transaction_active)
    (hext : ∀ w1, (g w1).ext = f w1.ext)
    (hop : ∀ w1, w1.ext = w.ext → op w1 = .ok (r, g w1)) :
    ∃ tm2, execute_transaction op w = .ok (r, ⟨tm2, f w.ext⟩) := by
  cases hw : w.tm.transaction_active with
  | true =>
    rw [execute_transaction_nested op w hw, hop (pushedWorld w) rfl]
    simp only [hstack, hactive, hext, pushedWorld, List.getLast?_concat,
      List.dropLast_concat]
    exact ⟨_, rfl⟩
  | false =>
    rw [execute_transaction_inactive op w hw, hop (beganWorld w) rfl]
    simp only [commit_transaction, hstack, hactive, hext, beganWorld, if_true]
    exact ⟨_, rfl⟩

/-- Failure propagation: when the operation raises the same error on every
world carrying the external state of the caller, leaving that world untouched,
the wrapped call re-raises it and the external state is unchanged. -/
theorem exec_err_const (op : World σ → Py (World σ) τ) (e : String) (w : World σ)
    (hop : ∀ w1, w1.ext = w.ext → op w1 = .error (e, w1)) :
    ∃ tm2, execute_transaction op w = .error (e, ⟨tm2, w.ext⟩) := by
  cases hw : w.tm.transaction_active with
  | true =>
    rw [execute_transaction_nested op w hw, hop (pushedWorld w) rfl]
    simp only [pushedWorld, List.getLast?_concat, List.dropLast_concat]
    exact ⟨_, rfl⟩
  | false =>
    rw [execute_transaction_inactive op w hw, hop (beganWorld w) rfl]
    simp only [rollback_transaction, beganWorld, if_true]
    exact ⟨_, rfl⟩

/-- Inversion of a successful `execute_transaction`: the operation itself
ran successfully, starting from the external state of the caller and already
producing the final external state. -/
theorem exec_ok_inv (op : World σ → Py (World σ) τ) (w : World σ) (r : τ)
    (w2 : World σ) (h : execute_transaction op w = .ok (r, w2)) :
    ∃ tmIn tmOut, op ⟨tmIn, w.ext⟩ = .ok (r, ⟨tmOut, w2.ext⟩) := by
  cases hw : w.tm.transaction_active with
  | true =>
    rw [execute_transaction_nested op w hw] at h
    rcases hop : op (pushedWorld w) with ⟨e, wm⟩ | ⟨r1, wm⟩ <;> rw [hop] at h
    · rcases hlast : wm.tm.transaction_stack.getLast? with _ | sp <;> simp [hlast] at h
    · rcases hlast : wm.tm.transaction_stack.getLast? with _ | sp
      · simp [hlast] at h
      · simp only [hlast, Except.ok.injEq, Prod.mk.injEq] at h
        obtain ⟨rfl, rfl⟩ := h
        exact ⟨(pushedWorld w).tm, wm.tm, hop⟩
  | false =>
    rw [execute_transaction_inactive op w hw] at h
    rcases hop : op (beganWorld w) with ⟨e, wm⟩ | ⟨r1, wm⟩ <;> rw [hop] at h
    · simp only [rollback_transaction] at h
      split at h <;> simp at h
    · simp only [commit_transaction] at h
      by_cases hact : wm.tm.transaction_active = true
      · simp only [if_pos hact, Except.ok.injEq, Prod.mk.injEq] at h
        obtain ⟨rfl, rfl⟩ := h
        exact ⟨(beganWorld w).tm, wm.tm, hop⟩
      · simp only [if_neg hact, rollback_transaction] at h
        simp at h

/-! ## Dictionary and validation lemmas -/

theorem dictGet?_append {α : Type} (l₁ l₂ : PyDict α) (k : String) :
    dictGet? (l₁ ++ l₂) k = (dictGet? l₁ k).or (dictGet? l₂ k) := by
  induction l₁ with
  | nil => simp [dictGet?]
  | cons p rest ih =>
    obtain ⟨k', v'⟩ := p
    by_cases h : k' = k <;> simp [dictGet?, h, ih]

theorem dictGet?_eq_none_of_not_mem_keys {α : Type} {l : PyDict α} {k : String}
    (h : k ∉ l.map Prod.fst) : dictGet? l k = none := by
  induction l with
  | nil => rfl
  | cons p rest ih =>
    obtain ⟨k', v'⟩ := p
    rw [dictGet?, if_neg (by rintro rfl; exact h (by simp))]
    exact ih (fun hm => h (by simp [hm]))

theorem dictGet?_dictDel_self {α : Type} (l : PyDict α) (k : String)
    (hnd : (l.map Prod.fst).Nodup) : dictGet? (dictDel l k) k = none := by
  induction l with
  | nil => rfl
  | cons p rest ih =>
    obtain ⟨k', v'⟩ := p
    rw [List.map_cons, List.nodup_cons] at hnd
    rw [dictDel]
    by_cases hk : k' = k
    · rw [if_pos hk]
      subst hk
      exact dictGet?_eq_none_of_not_mem_keys hnd.1
    · rw [if_neg hk, dictGet?, if_neg hk]
      exact ih hnd.2

theorem validate_fish_quantity_eq_nil (q : ℤ) :
    validate_fish_quantity q = [] ↔ 0 < q ∧ q ≤ 10000 := by
  rw [validate_fish_quantity]
  by_cases h1 : q ≤ 0 <;> by_cases h2 : q > 10000 <;> simp [h1, h2]
  all_goals omega

theorem validate_fish_stock_data_eq_nil (l : PyDict ℤ) :
    validate_fish_stock_data l = [] ↔ ∀ p ∈ l, validate_fish_quantity p.2 = [] := by
  have aux : ∀ (l : PyDict ℤ) (acc : List String),
      (l.foldl (fun errs p =>
          errs ++ (validate_fish_quantity p.2).map (fun e => p.1 ++ ": " ++ e)) acc = []
        ↔ acc = [] ∧ ∀ p ∈ l, validate_fish_quantity p.2 = []) := by
    intro l
    induction l with
    | nil => intro acc; simp
    | cons p rest ih =>
      intro acc
      rw [List.foldl_cons, ih]
      constructor
      · rintro ⟨h1, h2⟩
        obtain ⟨ha, hm⟩ := List.append_eq_nil.mp h1
        subst ha
        refine ⟨rfl, fun q hq => ?_⟩
        rcases List.mem_cons.mp hq with rfl | hq
        · exact List.map_eq_nil_iff.mp hm
        · exact h2 q hq
      · rintro ⟨rfl, hall⟩
        exact ⟨by simp [hall p (List.mem_cons_self _ _)],
          fun q hq => hall q (List.mem_cons_of_mem _ hq)⟩
  rw [validate_fish_stock_data, aux]
  simp

/-! ## The Stock invariant -/

/-- The documented invariant on the stock map: no key is bound to a zero
or negative quantity. -/
def StockOK (s : Stock) : Prop := ∀ p ∈ s, 0 < p.2

theorem dictGet?_pos {s : Stock} (hs : StockOK s) {k : String} {v : ℤ}
    (h : dictGet? s k = some v) : 0 < v := by
  induction s with
  | nil => simp [dictGet?] at h
  | cons p rest ih =>
    obtain ⟨k', v'⟩ := p
    rw [dictGet?] at h
    by_cases hk : k' = k
    · rw [if_pos hk, Option.some.injEq] at h
      exact h ▸ hs _ (List.mem_cons_self _ _)
    · rw [if_neg hk] at h
      exact ih (fun q hq => hs q (List.mem_cons_of_mem _ hq)) h

theorem dictGet?_getD_nonneg {s : Stock} (hs : StockOK s) (k : String) :
    0 ≤ (dictGet? s k).getD 0 := by
  cases h : dictGet? s k with
  | none => simp
  | some v => simpa using le_of_lt (dictGet?_pos hs h)

theorem StockOK_dictSet {s : Stock} (hs : StockOK s) {k : String} {v : ℤ}
    (hv : 0 < v) : StockOK (dictSet s k v) := by
  induction s with
  | nil => simpa [dictSet, StockOK]
  | cons p rest ih =>
    obtain ⟨k', v'⟩ := p
    rw [dictSet]
    by_cases hk : k' = k
    · rw [if_pos hk]
      intro q hq
      rcases List.mem_cons.mp hq with rfl | hq
      · exact hv
      · exact hs q (List.mem_cons_of_mem _ hq)
    · rw [if_neg hk]
      intro q hq
      rcases List.mem_cons.mp hq with rfl | hq
      · exact hs _ (List.mem_cons_self _ _)
      · exact ih (fun a ha => hs a (List.mem_cons_of_mem _ ha)) q hq

theorem StockOK_dictDel {s : Stock} (hs : StockOK s) (k : String) :
    StockOK (dictDel s k) := by
  induction s with
  | nil => simp [dictDel, StockOK]
  | cons p rest ih =>
    obtain ⟨k', v'⟩ := p
    rw [dictDel]
    by_cases hk : k' = k
    · rw [if_pos hk]
      exact fun q hq => hs q (List.mem_cons_of_mem _ hq)
    · rw [if_neg hk]
      intro q hq
      rcases List.mem_cons.mp hq with rfl | hq
      · exact hs _ (List.mem_cons_self _ _)
      · exact ih (fun a ha => hs a (List.mem_cons_of_mem _ ha)) q hq

theorem StockOK_applyAdditions {adds : PyDict ℤ} {s : Stock} (hs : StockOK s)
    (hq : ∀ p ∈ adds, 0 < p.2) : StockOK (applyAdditions s adds) := by
  induction adds generalizing s with
  | nil => simpa [applyAdditions]
  | cons p rest ih =>
    rw [applyAdditions, List.foldl_cons]
    exact ih
      (StockOK_dictSet hs
        (add_pos_of_nonneg_of_pos (dictGet?_getD_nonneg hs _)
          (hq p (List.mem_cons_self _ _))))
      (fun q hqq => hq q (List.mem_cons_of_mem _ hqq))

/-! ## Stock-manager operation lemmas -/

theorem _add_operation_ok_inv (repo : FishRepo) (ft : String) (q : ℤ)
    (tmIn tmOut : TMState) (s s2 : Stock) (r : Unit)
    (h : _add_operation repo ft q ⟨tmIn, s⟩ = .ok (r, ⟨tmOut, s2⟩)) :
    0 < q ∧ s2 = dictSet s (pyLower ft) ((dictGet? s (pyLower ft)).getD 0 + q) := by
  by_cases hval : validate_fish_quantity q = []
  · by_cases hex : fish_exists repo (pyLower ft) = true
    · simp only [_add_operation, hval, hex, if_true, save_state_ext, Except.ok.injEq,
        Prod.mk.injEq, World.mk.injEq] at h
      exact ⟨((validate_fish_quantity_eq_nil q).mp hval).1, h.2.2.symm⟩
    · simp [_add_operation, hval, hex] at h
  · simp [_add_operation, hval] at h

theorem _remove_operation_ok_inv (ft : String) (q : ℤ)
    (tmIn tmOut : TMState) (s s2 : Stock) (r : Unit)
    (h : _remove_operation ft q ⟨tmIn, s⟩ = .ok (r, ⟨tmOut, s2⟩)) :
    s2 = s ∨
    (∃ cur, dictGet? s (pyLower ft) = some cur ∧
      ((max 0 (cur - q) = 0 ∧ s2 = dictDel s (pyLower ft)) ∨
       (max 0 (cur - q) ≠ 0 ∧ s2 = dictSet s (pyLower ft) (max 0 (cur - q))))) := by
  by_cases hval : validate_fish_quantity q = []
  · rcases hcur : dictGet? s (pyLower ft) with _ | cur
    · left
      simp only [_remove_operation, hval, hcur, if_true, Except.ok.injEq,
        Prod.mk.injEq, World.mk.injEq] at h
      exact h.2.2.symm
    · right
      by_cases hz : max 0 (cur - q) = 0
      · refine ⟨cur, rfl, .inl ⟨hz, ?_⟩⟩
        simp only [_remove_operation, hval, hcur, hz, if_true, save_state_ext,
          Except.ok.injEq, Prod.mk.injEq, World.mk.injEq] at h
        exact h.2.2.symm
      · refine ⟨cur, rfl, .inr ⟨hz, ?_⟩⟩
        simp only [_remove_operation, hval, hcur, hz, if_true, if_false, save_state_ext,
          Except.ok.injEq, Prod.mk.injEq, World.mk.injEq] at h
        exact h.2.2.symm
  · simp [_remove_operation, hval] at h

theorem _bulk_add_operation_ok_inv (repo : FishRepo) (batch : PyDict ℤ)
    (tmIn tmOut : TMState) (s s2 : Stock) (r : Unit)
    (h : _bulk_add_operation repo batch ⟨tmIn, s⟩ = .ok (r, ⟨tmOut, s2⟩)) :
    (∀ p ∈ batch, validate_fish_quantity p.2 = []) ∧ s2 = applyAdditions s batch := by
  by_cases hval : validate_fish_stock_data batch = []
  · rcases hfind : batch.find? (fun p => !(fish_exists repo (pyLower p.1))) with _ | p0
    · simp only [_bulk_add_operation, hval, hfind, if_true, save_state_ext, Except.ok.injEq,
        Prod.mk.injEq, World.mk.injEq] at h
      exact ⟨(validate_fish_stock_data_eq_nil batch).mp hval, h.2.2.symm⟩
    · simp [_bulk_add_operation, hval, hfind] at h
  · simp [_bulk_add_operation, hval] at h

/-! ## Concrete data for witnesses and counterexamples -/

/-- Small fish catalog for concrete runs, with the values the spec
examples name: goldfish need 75 L each (bioload 1.0), koi 950 L each
(bioload 2.5). -/
def demoRepo : FishRepo :=
  [("goldfish", ⟨"Goldfish", 20, some 1, some 75⟩),
   ("koi", ⟨"Koi", 60, some (5/2), some 950⟩)]

/-- A top-level operation performing two stock mutations in sequence: the
first `add_fish` succeeds (mutating the stock), the second raises on an
unknown fish type. -/
def c1Op (w : World Stock) : Py (World Stock) Unit :=
  match add_fish demoRepo "goldfish" 5 w with
  | .ok (_, w1) => add_fish demoRepo "nofish" 1 w1
  | .error e => .error e

/-- Initial world for the C1 scenario: no transaction, empty stock. -/
def c1World : World Stock := ⟨⟨false, [], []⟩, []⟩

/-! ## C1 -/

/-- C1 counterexample: running two `add_fish` calls inside one top-level
`execute_transaction` where the first mutates the stock and the second
raises does NOT leave the stock at its pre-call value: the error
propagates but the stock keeps the first mutation (`rollback_transaction`
only clears bookkeeping). -/
theorem c1_counterexample :
    execute_transaction c1Op c1World =
      .error ("Unknown fish type: nofish", ⟨⟨false, [], []⟩, [("goldfish", 5)]⟩) ∧
    ([("goldfish", 5)] : Stock) ≠ c1World.ext :=
  ⟨by decide, by decide⟩

/-- C1 amended: when the operation of a top-level transaction raises, the
multi-step update is NOT rolled back to the pre-call state; the
transaction bookkeeping is cleared (inactive, empty rollback map and
savepoint stack) and the re-raised error leaves the external
Stock/Dimensions state exactly as the operation left it, retaining any
mutations applied by inner operations that completed before the
failure. -/
theorem c1_amended_no_state_restoration (op : World σ → Py (World σ) τ)
    (e : String) (w wmid : World σ)
    (hw : w.tm.transaction_active = false)
    (hop : op (beganWorld w) = .error (e, wmid))
    (hmid : wmid.tm.transaction_active = true) :
    execute_transaction op w = .error (e, ⟨⟨false, [], []⟩, wmid.ext⟩) := by
  rw [execute_transaction_inactive op w hw, hop]
  simp only [rollback_transaction, hmid, if_true]

/-- Witness for C1 amended at the concrete two-step scenario. -/
theorem c1_amended_witness :
    execute_transaction c1Op c1World =
      .error ("Unknown fish type: nofish", ⟨⟨false, [], []⟩, [("goldfish", 5)]⟩) :=
  c1_amended_no_state_restoration c1Op "Unknown fish type: nofish" c1World
    ⟨⟨true, [("fish_stock", SavedVal.stock [])], []⟩, [("goldfish", 5)]⟩
    rfl (by decide) rfl

/-! ## C2 -/

/-- C2: a call to `execute_transaction` while a transaction is active
pushes a (deep copy of the) current rollback-snapshot map as a savepoint
and runs the operation on that world; if the operation succeeds the
savepoint is popped and discarded and the operation result is returned,
and if it raises, the rollback-snapshot map is replaced by the popped
savepoint — the exact pre-savepoint contents `w.tm.rollback_data` — and
the same error is re-raised to the outer transaction. -/
theorem c2_nested_execute (op : World σ → Py (World σ) τ) (w : World σ)
    (hw : w.tm.transaction_active = true) :
    (∀ r w2, op (pushedWorld w) = .ok (r, w2) →
      w2.tm.transaction_stack = w.tm.transaction_stack ++ [w.tm.rollback_data] →
      execute_transaction op w =
        .ok (r, { w2 with tm := { w2.tm with transaction_stack := w.tm.transaction_stack } })) ∧
    (∀ e w2, op (pushedWorld w) = .error (e, w2) →
      w2.tm.transaction_stack = w.tm.transaction_stack ++ [w.tm.rollback_data] →
      execute_transaction op w =
        .error (e, { w2 with tm := { w2.tm with rollback_data := w.tm.rollback_data, transaction_stack := w.tm.transaction_stack } })) := by
  constructor
  · intro r w2 hop hbal
    rw [execute_transaction_nested op w hw, hop]
    simp only [hbal, List.getLast?_concat, List.dropLast_concat]
  · intro e w2 hop hbal
    rw [execute_transaction_nested op w hw, hop]
    simp only [hbal, List.getLast?_concat, List.dropLast_concat]

/-- A nested operation that saves one value and then raises. -/
def c2DemoOp (w : World Stock) : Py (World Stock) Unit :=
  .error ("boom", save_state "k" (.stock [("x", 1)]) w)

/-- World with an active transaction, one rollback entry and one
savepoint on the stack, for the C2 witness. -/
def c2World : World Stock := ⟨⟨true, [("a", SavedVal.stock [])], [[]]⟩, []⟩

/-- Witness for C2 at a concrete nested failure: the rollback map is
restored to its pre-savepoint contents and the error re-raised. -/
theorem c2_witness :
    execute_transaction c2DemoOp c2World =
      .error ("boom", ⟨⟨true, [("a", SavedVal.stock [])], [[]]⟩, []⟩) :=
  (c2_nested_execute c2DemoOp c2World rfl).2 "boom"
    (save_state "k" (.stock [("x", 1)]) (pushedWorld c2World)) rfl (by decide)

/-! ## C6 -/

/-- C6 counterexample: the bioload category strings returned by
`calculate_pump_size` are `"Light bioload"` / `"Medium bioload"` /
`"Heavy bioload"`, so the claimed equality
`pump_size(5000, 3.0) = (3250, "Light")` fails on its category
component. -/
theorem c6_counterexample :
    calculate_pump_size 5000 3 = .ok (3250, "Light bioload") ∧
    ((3250, "Light bioload") : ℤ × String) ≠ (3250, "Light") :=
  ⟨by simp [calculate_pump_size, pyInt]; norm_num [Rat.floor], by decide⟩

/-- C6 amended: for volume > 0 and bioload ≥ 0, `calculate_pump_size`
returns `floor((volume/2) × (1 + bioload/10))` paired with the category
`"Light bioload"` when bioload ≤ 5, `"Medium bioload"` when ≤ 15, else
`"Heavy bioload"`; in particular (5000, 3) ↦ (3250, "Light bioload"),
(5000, 10) ↦ (5000, "Medium bioload"), (5000, 20) ↦ (7500,
"Heavy bioload"); and it fails when volume ≤ 0 or bioload < 0. -/
theorem c6_pump_size_amended :
    (∀ v b : ℚ, 0 < v → 0 ≤ b →
      calculate_pump_size v b = .ok ((v / 2 * (1 + b / 10)).floor,
        if b ≤ 5 then "Light bioload"
        else if b ≤ 15 then "Medium bioload"
        else "Heavy bioload")) ∧
    calculate_pump_size 5000 3 = .ok (3250, "Light bioload") ∧
    calculate_pump_size 5000 10 = .ok (5000, "Medium bioload") ∧
    calculate_pump_size 5000 20 = .ok (7500, "Heavy bioload") ∧
    (∀ v b : ℚ, v ≤ 0 →
      calculate_pump_size v b = .error "Pond volume must be positive") ∧
    (∀ v b : ℚ, 0 < v → b < 0 →
      calculate_pump_size v b = .error "Bioload cannot be negative") := by
  refine ⟨?_, ?_, ?_, ?_, ?_, ?_⟩
  · intro v b hv hb
    have h1 : ¬ v ≤ 0 := not_le.mpr hv
    have h2 : ¬ b < 0 := not_lt.mpr hb
    have h3 : 0 ≤ v / 2 * (1 + b / 10) :=
      mul_nonneg (by linarith) (by linarith)
    simp only [calculate_pump_size, h1, h2, if_false, pyInt, h3, if_true]
  · simp [calculate_pump_size, pyInt]; norm_num [Rat.floor]
  · simp [calculate_pump_size, pyInt]; norm_num [Rat.floor]
  · simp [calculate_pump_size, pyInt]; norm_num [Rat.floor]
  · intro v b hv
    rw [calculate_pump_size, if_pos hv]
  · intro v b hv hb
    rw [calculate_pump_size, if_neg (not_le.mpr hv), if_pos hb]

/-- Witness for C6 amended at (5000, 3). -/
theorem c6_witness :
    calculate_pump_size 5000 3 = .ok (((5000 : ℚ) / 2 * (1 + 3 / 10)).floor,
      if (3 : ℚ) ≤ 5 then "Light bioload"
      else if (3 : ℚ) ≤ 15 then "Medium bioload"
      else "Heavy bioload") :=
  c6_pump_size_amended.1 5000 3 (by norm_num) (by norm_num)

/-! ## C9 -/

/-- C9: within an active transaction, the first `save_state` for a key
stores the value passed then, any sequence of later `save_state` calls
(for this or other keys) leaves that stored value untouched, so
`get_rollback_state` keeps returning the pre-transaction value; and a
`save_state` for a key that already has an entry is a no-op on the whole
world. -/
theorem c9_save_state_first_write_wins (w : World σ) (k : String) (v : SavedVal)
    (hact : w.tm.transaction_active = true)
    (hnew : dictGet? w.tm.rollback_data k = none) :
    get_rollback_state k (save_state k v w) = some v ∧
    (∀ calls : List (String × SavedVal),
      get_rollback_state k
        (calls.foldl (fun acc p => save_state p.1 p.2 acc) (save_state k v w)) = some v) ∧
    (∀ (w2 : World σ) (v2 : SavedVal), (dictGet? w2.tm.rollback_data k).isSome →
      save_state k v2 w2 = w2) := by
  have hfirst : get_rollback_state k (save_state k v w) = some v := by
    rw [save_state, if_pos (by simp [hact, hnew])]
    rw [get_rollback_state]
    show dictGet? (w.tm.rollback_data ++ [(k, v)]) k = some v
    rw [dictGet?_append, hnew]
    simp [dictGet?]
  have keep : ∀ (calls : List (String × SavedVal)) (w1 : World σ),
      get_rollback_state k w1 = some v →
      get_rollback_state k
        (calls.foldl (fun acc p => save_state p.1 p.2 acc) w1) = some v := by
    intro calls
    induction calls with
    | nil => intro w1 h1; simpa using h1
    | cons p rest ih =>
      intro w1 h1
      rw [List.foldl_cons]
      refine ih _ ?_
      rw [get_rollback_state] at h1 ⊢
      rw [save_state]
      split
      · show dictGet? (w1.tm.rollback_data ++ [(p.1, p.2)]) k = some v
        rw [dictGet?_append, h1]
        rfl
      · exact h1
  refine ⟨hfirst, fun calls => keep calls _ hfirst, ?_⟩
  intro w2 v2 hsome
  rw [save_state, if_neg]
  simp only [Bool.and_eq_true, Option.isNone_iff_eq_none]
  rintro ⟨-, hnone⟩
  rw [hnone] at hsome
  cases hsome

/-- Witness for C9: a first save of the empty stock survives a later save
for the same key and a save for another key. -/
theorem c9_witness :
    get_rollback_state "fish_stock"
      (([("fish_stock", SavedVal.stock [("x", 5)]),
         ("dimensions", SavedVal.dims none)]).foldl
        (fun acc p => save_state p.1 p.2 acc)
        (save_state "fish_stock" (SavedVal.stock [])
          (⟨⟨true, [], []⟩, ()⟩ : World Unit))) = some (SavedVal.stock []) :=
  (c9_save_state_first_write_wins (⟨⟨true, [], []⟩, ()⟩ : World Unit)
    "fish_stock" (SavedVal.stock []) rfl rfl).2.1 _

/-! ## C10 -/

/-- C10: `get_stocking_recommendations` raises
`ValueError("Pond volume must be positive")` for every pond volume ≤ 0,
before consulting the catalog — the result is this error for every
catalog. -/
theorem c10_stocking_recommendations_rejects_nonpositive (repo : FishRepo)
    (v : ℚ) (hv : v ≤ 0) :
    get_stocking_recommendations repo v = .error "Pond volume must be positive" := by
  rw [get_stocking_recommendations, if_pos hv]

/-- Witness for C10 at volume 0. -/
theorem c10_witness :
    get_stocking_recommendations demoRepo 0 = .error "Pond volume must be positive" :=
  c10_stocking_recommendations_rejects_nonpositive demoRepo 0 (by norm_num)

/-! ## C3 -/

/-- C3: `bulk_add_fish` validates the whole batch and the existence of
every fish key before any mutation: when any entry has an invalid
quantity or any key is unknown the call raises and the stock is exactly
its pre-call value, and when the whole batch is valid every increment is
applied (in batch order). -/
theorem c3_bulk_add_atomicity :
    (∀ (repo : FishRepo) (batch : PyDict ℤ) (w : World Stock),
      validate_fish_stock_data batch ≠ [] ∨
        (∃ p ∈ batch, fish_exists repo (pyLower p.1) = false) →
      ∃ e tm2, bulk_add_fish repo batch w = .error (e, ⟨tm2, w.ext⟩)) ∧
    (∀ (repo : FishRepo) (batch : PyDict ℤ) (w : World Stock),
      validate_fish_stock_data batch = [] →
      (∀ p ∈ batch, fish_exists repo (pyLower p.1) = true) →
      ∃ tm2, bulk_add_fish repo batch w = .ok ((), ⟨tm2, applyAdditions w.ext batch⟩)) := by
  constructor
  · intro repo batch w hbad
    by_cases hval : validate_fish_stock_data batch = []
    · rcases hbad with hval2 | ⟨p, hp, hex⟩
      · exact absurd hval hval2
      · have hsome : (batch.find? (fun p => !(fish_exists repo (pyLower p.1)))).isSome := by
          rw [List.find?_isSome]
          exact ⟨p, hp, by simp [hex]⟩
        obtain ⟨q, hq⟩ := Option.isSome_iff_exists.mp hsome
        have hop : ∀ w1 : World Stock, w1.ext = w.ext →
            _bulk_add_operation repo batch w1 =
              .error ("Unknown fish type: " ++ q.1, w1) := by
          intro w1 _
          simp only [_bulk_add_operation, hval, if_true, hq]
        obtain ⟨tm2, h⟩ := exec_err_const _ _ w hop
        exact ⟨_, tm2, h⟩
    · have hop : ∀ w1 : World Stock, w1.ext = w.ext →
          _bulk_add_operation repo batch w1 =
            .error ("Invalid fish stock data: " ++
              String.intercalate "; " (validate_fish_stock_data batch), w1) := by
        intro w1 _
        simp only [_bulk_add_operation, hval, if_false]
      obtain ⟨tm2, h⟩ := exec_err_const _ _ w hop
      exact ⟨_, tm2, h⟩
  · intro repo batch w hval hall
    have hfind : batch.find? (fun p => !(fish_exists repo (pyLower p.1))) = none := by
      rw [List.find?_eq_none]
      intro p hp
      simp [hall p hp]
    exact exec_ok_of _
      (fun w1 => { save_state "fish_stock" (.stock w1.ext) w1 with
        ext := applyAdditions w1.ext batch })
      (fun s => applyAdditions s batch) () w
      (fun w1 => by simp) (fun w1 => by simp) (fun w1 => rfl)
      (fun w1 _ => by simp only [_bulk_add_operation, hval, if_true, hfind, save_state_ext])

/-- Witness for C3 at a concrete valid batch over an empty stock. -/
theorem c3_witness :
    ∃ tm2, bulk_add_fish demoRepo [("goldfish", 2), ("koi", 1)] ⟨⟨false, [], []⟩, []⟩ =
      .ok ((), ⟨tm2, applyAdditions [] [("goldfish", 2), ("koi", 1)]⟩) :=
  c3_bulk_add_atomicity.2 demoRepo [("goldfish", 2), ("koi", 1)] ⟨⟨false, [], []⟩, []⟩
    (by decide) (by decide)

/-! ## C4 -/

/-- C4: every successful public stock mutation preserves the invariant
that no key maps to a zero or negative quantity: `add_fish` only adds
validated positive quantities, `remove_fish` deletes a key whose new
quantity would reach 0, `bulk_add_fish` adds validated positive
quantities, and `clear_stock` empties the stock. -/
theorem c4_stock_invariant :
    (∀ (repo : FishRepo) (ft : String) (q : ℤ) (w w2 : World Stock) (r : Unit),
      StockOK w.ext → add_fish repo ft q w = .ok (r, w2) → StockOK w2.ext) ∧
    (∀ (ft : String) (q : ℤ) (w w2 : World Stock) (r : Unit),
      StockOK w.ext → remove_fish ft q w = .ok (r, w2) → StockOK w2.ext) ∧
    (∀ (repo : FishRepo) (batch : PyDict ℤ) (w w2 : World Stock) (r : Unit),
      StockOK w.ext → bulk_add_fish repo batch w = .ok (r, w2) → StockOK w2.ext) ∧
    (∀ w : World Stock, StockOK (clear_stock w).ext) := by
  refine ⟨?_, ?_, ?_, ?_⟩
  · intro repo ft q w w2 r hOK h
    obtain ⟨tmIn, tmOut, hop⟩ := exec_ok_inv _ w r w2 h
    obtain ⟨hq, hs2⟩ := _add_operation_ok_inv repo ft q tmIn tmOut w.ext w2.ext r hop
    rw [hs2]
    exact StockOK_dictSet hOK
      (add_pos_of_nonneg_of_pos (dictGet?_getD_nonneg hOK _) hq)
  · intro ft q w w2 r hOK h
    obtain ⟨tmIn, tmOut, hop⟩ := exec_ok_inv _ w r w2 h
    rcases _remove_operation_ok_inv ft q tmIn tmOut w.ext w2.ext r hop with
      hs2 | ⟨cur, hcur, ⟨hz, hs2⟩ | ⟨hz, hs2⟩⟩
    · rw [hs2]; exact hOK
    · rw [hs2]; exact StockOK_dictDel hOK _
    · rw [hs2]
      exact StockOK_dictSet hOK (lt_of_le_of_ne (le_max_left 0 _) (Ne.symm hz))
  · intro repo batch w w2 r hOK h
    obtain ⟨tmIn, tmOut, hop⟩ := exec_ok_inv _ w r w2 h
    obtain ⟨hq, hs2⟩ := _bulk_add_operation_ok_inv repo batch tmIn tmOut w.ext w2.ext r hop
    rw [hs2]
    exact StockOK_applyAdditions hOK
      (fun p hp => ((validate_fish_quantity_eq_nil p.2).mp (hq p hp)).1)
  · intro w p hp
    cases hp

/-- Witness for C4 at a concrete `add_fish` run. -/
theorem c4_witness : StockOK [("goldfish", 5)] :=
  c4_stock_invariant.1 demoRepo "goldfish" 5 ⟨⟨false, [], []⟩, []⟩
    ⟨⟨false, [], []⟩, [("goldfish", 5)]⟩ ()
    (fun p hp => absurd hp (List.not_mem_nil p)) (by decide)

/-! ## C8 -/

/-- C8: with a valid quantity, `remove_fish` on a key absent from the
stock succeeds leaving the stock unchanged, and `remove_fish` with a
quantity at least the current one deletes the key entirely (so, with
unique keys, the key no longer resolves afterwards). -/
theorem c8_remove_semantics (ft : String) (q : ℤ) (w : World Stock)
    (hval : validate_fish_quantity q = []) :
    (dictGet? w.ext (pyLower ft) = none →
      ∃ tm2, remove_fish ft q w = .ok ((), ⟨tm2, w.ext⟩)) ∧
    (∀ cur, dictGet? w.ext (pyLower ft) = some cur → cur ≤ q →
      (∃ tm2, remove_fish ft q w = .ok ((), ⟨tm2, dictDel w.ext (pyLower ft)⟩)) ∧
      ((w.ext.map Prod.fst).Nodup →
        dictGet? (dictDel w.ext (pyLower ft)) (pyLower ft) = none)) := by
  constructor
  · intro habs
    exact exec_ok_of _ (fun w1 => w1) (fun s => s) () w
      (fun w1 => rfl) (fun w1 => rfl) (fun w1 => rfl)
      (fun w1 hw1 => by
        simp only [_remove_operation, hval, if_true, hw1, habs])
  · intro cur hcur hle
    have hz : max 0 (cur - q) = 0 := by omega
    refine ⟨?_, fun hnd => dictGet?_dictDel_self w.ext (pyLower ft) hnd⟩
    exact exec_ok_of _
      (fun w1 => { save_state "fish_stock" (.stock w1.ext) w1 with
        ext := dictDel w1.ext (pyLower ft) })
      (fun s => dictDel s (pyLower ft)) () w
      (fun w1 => by simp) (fun w1 => by simp) (fun w1 => rfl)
      (fun w1 hw1 => by
        simp only [_remove_operation, hval, if_true, hw1, hcur, hz, save_state_ext])

/-- Initial world for the C8 witness: no transaction, three koi in
stock. -/
def c8World : World Stock := ⟨⟨false, [], []⟩, [("koi", 3)]⟩

/-- Witness for C8: removing 10 koi from a stock holding 3 deletes the
key. -/
theorem c8_witness :
    ((∃ tm2, remove_fish "koi" 10 c8World =
        .ok ((), ⟨tm2, dictDel c8World.ext (pyLower "koi")⟩)) ∧
     ((c8World.ext.map Prod.fst).Nodup →
        dictGet? (dictDel c8World.ext (pyLower "koi")) (pyLower "koi") = none)) :=
  (c8_remove_semantics "koi" 10 c8World (by decide)).2 3 rfl (by decide)

/-! ## C5 -/

/-- Spec-side area dispatch table (the `formula_kind` table of the spec),
stated independently of the implementation for the refinement claim. -/
def areaSpec (C : MathConsts) (kind description : String) (length width : ℚ) : ℚ :=
  if kind = "simple" then length * width
  else if kind = "circular" then C.pi * (width / 2) ^ 2
  else if kind = "elliptical" then C.pi * (length / 2) * (width / 2)
  else if kind = "triangular" then (1 / 2 : ℚ) * length * width
  else if kind = "polygon" then
    if strIn "hexagonal" description then (3 * C.sqrt3 / 2) * width * width
    else if strIn "octagonal" description then 2 * (1 + C.sqrt2) * width * width
    else length * width
  else if kind = "approximation" then
    if strIn "pi" description then C.pi * (length / 2) * (width / 2)
    else length * width
  else length * width

theorem _calculate_volume_by_shape_config_eq_spec (C : MathConsts)
    (cfg : ShapeConfig) (l w dpt : ℚ) :
    _calculate_volume_by_shape_config C cfg l w dpt =
      areaSpec C (cfg.formula_type.getD "simple") (cfg.area_formula.getD "") l w *
        cfg.multiplier.getD 1 * dpt := rfl

/-- Modelled from the spec: the shape catalog (`pond_shapes.yaml`) is not
part of `src/`; per the spec dispatch table and its worked example, the
`rectangular` entry uses the `simple` formula with multiplier `1.0`. -/
def rectConfig : ShapeConfig := ⟨some "simple", some 1, none⟩

/-- Modelled from the spec: a shape catalog holding the rectangular entry
and no validation bounds (absent bounds default to `0` / `+∞`). -/
def rectRepo : ShapeRepo :=
  ⟨[("rectangular", rectConfig)], ⟨⟨none, none, none⟩, ⟨none, none, none⟩⟩⟩

/-- Dimensions of the worked example: 5 × 3 × 1.5, rectangular. -/
def c5Dims : PondDimensions := ⟨5, 3, 3/2, "rectangular"⟩

/-- C5: for validated dimensions whose shape resolves to a catalog
config, `calculate_volume_liters` computes `area × multiplier × depth ×
1000` with the area given by the spec dispatch table, and fails with
`"Calculated volume must be positive"` whenever the computed volume is
not strictly positive; in particular the rectangular 5 × 3 × 1.5 pond
yields 22500 liters for every value of the float constants. -/
theorem c5_volume_dispatch_and_positivity :
    (∀ (C : MathConsts) (repo : ShapeRepo) (d : PondDimensions) (cfg : ShapeConfig),
      d.shape ≠ "" →
      dictGet? repo.shapes (pyLower d.shape) = some cfg →
      ¬ d.length_meters < repo.validation_rules.min_dimensions.length.getD 0 →
      ¬ d.width_meters < repo.validation_rules.min_dimensions.width.getD 0 →
      ¬ d.avg_depth_meters < repo.validation_rules.min_dimensions.depth.getD 0 →
      exceedsMax d.length_meters repo.validation_rules.max_dimensions.length = false →
      exceedsMax d.width_meters repo.validation_rules.max_dimensions.width = false →
      exceedsMax d.avg_depth_meters repo.validation_rules.max_dimensions.depth = false →
      (areaSpec C (cfg.formula_type.getD "simple") (cfg.area_formula.getD "")
          d.length_meters d.width_meters * cfg.multiplier.getD 1 * d.avg_depth_meters ≤ 0 →
        calculate_volume_liters C repo (some d) =
          .error "Calculated volume must be positive") ∧
      (0 < areaSpec C (cfg.formula_type.getD "simple") (cfg.area_formula.getD "")
          d.length_meters d.width_meters * cfg.multiplier.getD 1 * d.avg_depth_meters →
        calculate_volume_liters C repo (some d) =
          .ok (areaSpec C (cfg.formula_type.getD "simple") (cfg.area_formula.getD "")
            d.length_meters d.width_meters * cfg.multiplier.getD 1 *
            d.avg_depth_meters * 1000))) ∧
    (∀ C : MathConsts,
      calculate_volume_liters C rectRepo (some c5Dims) = .ok 22500) := by
  constructor
  · intro C repo d cfg hsh hcfg hminl hminw hmind hmaxl hmaxw hmaxd
    have hval : _validate_dimensions repo d = .ok () := by
      simp [_validate_dimensions, hsh, shape_exists, hcfg, hminl, hminw, hmind,
        hmaxl, hmaxw, hmaxd]
    constructor
    · intro hvol
      simp only [calculate_volume_liters, hval, get_shape_by_key, hcfg,
        _calculate_volume_by_shape_config_eq_spec, hvol, if_true]
    · intro hvol
      have hnot : ¬ areaSpec C (cfg.formula_type.getD "simple") (cfg.area_formula.getD "")
          d.length_meters d.width_meters * cfg.multiplier.getD 1 * d.avg_depth_meters ≤ 0 :=
        not_le.mpr hvol
      simp only [calculate_volume_liters, hval, get_shape_by_key, hcfg,
        _calculate_volume_by_shape_config_eq_spec, hnot, if_false]
  · intro C
    norm_num +decide [calculate_volume_liters, _validate_dimensions, shape_exists,
      get_shape_by_key, _calculate_volume_by_shape_config, exceedsMax, pyLower,
      charLower, rectRepo, rectConfig, c5Dims, dictGet?]

/-- Witness for C5 at the rectangular worked example. -/
theorem c5_witness :
    calculate_volume_liters ⟨0, 0, 0⟩ rectRepo (some c5Dims) =
      .ok (areaSpec ⟨0, 0, 0⟩ (rectConfig.formula_type.getD "simple")
        (rectConfig.area_formula.getD "") c5Dims.length_meters c5Dims.width_meters *
        rectConfig.multiplier.getD 1 * c5Dims.avg_depth_meters * 1000) :=
  ((c5_volume_dispatch_and_positivity.1 ⟨0, 0, 0⟩ rectRepo c5Dims rectConfig
    (by decide) rfl (by norm_num [rectRepo, c5Dims]) (by norm_num [rectRepo, c5Dims])
    (by norm_num [rectRepo, c5Dims]) rfl rfl rfl).2
    (by norm_num +decide [areaSpec, rectConfig, c5Dims]))

/-! ## C7 -/

/-- Spec-side formula for the required volume: the sum, over the stock
entries with positive quantity, of the per-individual requirement times
the quantity. -/
def requiredVolumeSpec (repo : FishRepo) (stock : PyDict ℤ) : ℚ :=
  ((stock.filter (fun p => decide (0 < p.2))).map
    (fun p => (((dictGet? repo (pyLower p.1)).bind Fish.min_liters_per_fish).getD 0) *
      p.2)).sum

/-- C7: when every entry with positive quantity resolves to a species
with a positive per-individual requirement, `calculate_required_volume`
returns the spec sum (entries with quantity ≤ 0 contribute nothing and
are never looked up); it fails whenever some counted entry is missing
from the catalog or has an absent or non-positive requirement; and the
spec example stock yields 2275. -/
theorem c7_required_volume :
    (∀ (repo : FishRepo) (stock : PyDict ℤ),
      (∀ p ∈ stock, 0 < p.2 → ∃ ml,
        (dictGet? repo (pyLower p.1)).bind Fish.min_liters_per_fish = some ml ∧ 0 < ml) →
      calculate_required_volume repo stock = .ok (requiredVolumeSpec repo stock)) ∧
    (∀ (repo : FishRepo) (stock : PyDict ℤ) (p : String × ℤ), p ∈ stock → 0 < p.2 →
      (¬ ∃ ml, (dictGet? repo (pyLower p.1)).bind Fish.min_liters_per_fish = some ml ∧
        0 < ml) →
      ∃ e, calculate_required_volume repo stock = .error e) ∧
    calculate_required_volume demoRepo [("goldfish", 5), ("koi", 2)] = .ok 2275 := by
  have aux : ∀ (repo : FishRepo) (stock : PyDict ℤ),
      (∀ p ∈ stock, 0 < p.2 → ∃ ml,
        (dictGet? repo (pyLower p.1)).bind Fish.min_liters_per_fish = some ml ∧ 0 < ml) →
      ∀ total, requiredVolumeGo repo total stock =
        .ok (total + requiredVolumeSpec repo stock) := by
    intro repo stock
    induction stock with
    | nil => intro _ total; simp [requiredVolumeGo, requiredVolumeSpec]
    | cons p rest ih =>
      intro hgood total
      rw [requiredVolumeGo]
      by_cases hq : p.2 ≤ 0
      · rw [if_pos hq, ih (fun a ha hpos => hgood a (List.mem_cons_of_mem _ ha) hpos) total]
        have hsame : requiredVolumeSpec repo (p :: rest) = requiredVolumeSpec repo rest := by
          rw [requiredVolumeSpec, requiredVolumeSpec, List.filter_cons]
          simp [not_lt.mpr hq]
        rw [hsame]
      · obtain ⟨ml, hml, hmlpos⟩ := hgood p (List.mem_cons_self _ _) (lt_of_not_le hq)
        rcases hfish : dictGet? repo (pyLower p.1) with _ | fish
        · rw [hfish] at hml; cases hml
        · rw [hfish, Option.some_bind] at hml
          have hnotle : ¬ ml ≤ 0 := not_le.mpr hmlpos
          rw [if_neg hq]
          simp only [get_fish_by_key, hfish, hml, hnotle, if_false, ite_false]
          rw [ih (fun a ha hpos => hgood a (List.mem_cons_of_mem _ ha) hpos) (total + ml * p.2)]
          have hspec : requiredVolumeSpec repo (p :: rest) =
              ml * p.2 + requiredVolumeSpec repo rest := by
            rw [requiredVolumeSpec, requiredVolumeSpec, List.filter_cons]
            simp [lt_of_not_le hq, hfish, hml]
          rw [hspec, add_assoc]
  have aux2 : ∀ (repo : FishRepo) (stock : PyDict ℤ),
      (∃ p ∈ stock, 0 < p.2 ∧ ¬ ∃ ml,
        (dictGet? repo (pyLower p.1)).bind Fish.min_liters_per_fish = some ml ∧ 0 < ml) →
      ∀ total, ∃ e, requiredVolumeGo repo total stock = .error e := by
    intro repo stock
    induction stock with
    | nil => rintro ⟨p, hp, -⟩; cases hp
    | cons q rest ih =>
      rintro ⟨p, hp, hpos, hbad⟩ total
      rw [requiredVolumeGo]
      by_cases hq : q.2 ≤ 0
      · rw [if_pos hq]
        rcases List.mem_cons.mp hp with rfl | hp2
        · exact absurd hpos (not_lt.mpr hq)
        · exact ih ⟨p, hp2, hpos, hbad⟩ total
      · rw [if_neg hq]
        rcases hfish : dictGet? repo (pyLower q.1) with _ | fish
        · simp only [get_fish_by_key, hfish]
          exact ⟨_, rfl⟩
        · simp only [get_fish_by_key, hfish]
          rcases hml : fish.min_liters_per_fish with _ | ml
          · exact ⟨_, rfl⟩
          · by_cases hmlpos : ml ≤ 0
            · simp only [hmlpos, if_true, ite_true]
              exact ⟨_, rfl⟩
            · simp only [hmlpos, if_false, ite_false]
              rcases List.mem_cons.mp hp with rfl | hp2
              · exact absurd ⟨ml, by rw [hfish, Option.some_bind, hml], not_le.mp hmlpos⟩ hbad
              · exact ih ⟨p, hp2, hpos, hbad⟩ _
  refine ⟨?_, ?_, ?_⟩
  · intro repo stock hgood
    rw [calculate_required_volume, aux repo stock hgood 0, zero_add]
  · intro repo stock p hp hpos hbad
    exact aux2 repo stock ⟨p, hp, hpos, hbad⟩ 0
  · norm_num +decide [calculate_required_volume, requiredVolumeGo, get_fish_by_key,
      pyLower, charLower, demoRepo, dictGet?]

/-- Witness for C7 at the spec example stock. -/
theorem c7_witness :
    calculate_required_volume demoRepo [("goldfish", 5), ("koi", 2)] =
      .ok (requiredVolumeSpec demoRepo [("goldfish", 5), ("koi", 2)]) :=
  c7_required_volume.1 demoRepo [("goldfish", 5), ("koi", 2)] (by
    intro p hp hpos
    rcases List.mem_cons.mp hp with rfl | hp
    · exact ⟨75, rfl, by norm_num⟩
    rcases List.mem_cons.mp hp with rfl | hp
    · exact ⟨950, rfl, by norm_num⟩
    · cases hp)

end Pond
